import Mathlib

/-!
Shallow embedding of src/flappybird.py (Flappy Bird with a tabular
Q-learning agent).  Python floats are modelled by exact rationals,
Python ints by Lean integers or naturals, the value table dict by a
partial map with default-0 reads, and the global Mersenne-Twister
generator by an abstract draw function over abstract generator states.
Line numbers in doc comments refer to src/flappybird.py.
-/

/-- FPS = 60 (line 16). -/
def FPS : ℚ := 60

/-- frames_to_msec (lines 296-303): 1000.0 * frames / fps at the default fps. -/
def frames_to_msec (frames : ℚ) : ℚ := 1000 * frames / FPS

/-- Bird.CLIMB_DURATION = 333.3 (line 53). -/
def CLIMB_DURATION : ℚ := 3333 / 10

/-- Effect of one Bird.update call (lines 92-98) on the msec_to_climb field:
if msec_to_climb > 0 it is decreased by frames_to_msec(1), otherwise the
else branch leaves it unchanged (only y moves).  The y component uses
math.cos and is independent of the timer, so it is not needed for the
timer claims. -/
def msecStep (m : ℚ) : ℚ :=
  if m > 0 then m - frames_to_msec 1 else m

/-- Quantized state triple (verticalOffset, horizontalOffset, isDead),
the key shape built at line 438 and seeded at line 403. -/
abbrev QState := ℤ × ℤ × Bool

/-- The value table dict mapping (state, action) to a float estimate;
a Python dict, so a key is either present with a value or absent. -/
abbrev QTable := QState × Bool → Option ℚ

/-- dict.get(k, 0): read with default 0 for absent keys. -/
def qget (d : QTable) (k : QState × Bool) : ℚ := (d k).getD 0

/-- dict[k] = v: store v at k, leaving every other key alone. -/
def qset (d : QTable) (k : QState × Bool) (v : ℚ) : QTable :=
  fun k2 => if k2 = k then some v else d k2

/-- dict = {} (line 359). -/
def emptyTable : QTable := fun _ => none

/-- get_max_reward (lines 316-321): the larger of dict.get((state, action), 0)
and dict.get((state, not action), 0). -/
def get_max_reward (state : QState) (d : QTable) (action : Bool) : ℚ :=
  if qget d (state, action) > qget d (state, !action) then qget d (state, action)
  else qget d (state, !action)

/-- The periodic update executed when fps_to_next_action == 15
(lines 440-452): reward = 1, overwritten by -1000 when dead;
max_reward = get_max_reward(state, dict, action); then
dict[previous_state, previous_action] =
  dict.get(ps, 0) + 0.7 * (reward + 0.9 * max_reward - dict.get(ps, 0)). -/
def intervalUpdate (d : QTable) (previous_state : QState) (previous_action : Bool)
    (state : QState) (action : Bool) (dead : Bool) : QTable :=
  let reward : ℚ := if dead then -1000 else 1
  let max_reward := get_max_reward state d action
  qset d (previous_state, previous_action)
    (qget d (previous_state, previous_action) +
      (7/10) * (reward + (9/10) * max_reward - qget d (previous_state, previous_action)))

/-- The per-frame death update (lines 513-535): first dict[state, action] = -1000,
then reward = -1000, max_reward = get_max_reward(state, dict, action) read from
the table after that overwrite, and finally
dict[previous_state, previous_action] =
  dict.get(ps, 0) + 0.7 * (reward + 0.75 * max_reward - dict.get(ps, 0)). -/
def deathUpdate (d : QTable) (state : QState) (action : Bool)
    (previous_state : QState) (previous_action : Bool) : QTable :=
  let d1 := qset d (state, action) (-1000)
  let reward : ℚ := -1000
  let max_reward := get_max_reward state d1 action
  qset d1 (previous_state, previous_action)
    (qget d1 (previous_state, previous_action) +
      (7/10) * (reward + (3/4) * max_reward - qget d1 (previous_state, previous_action)))

/-- The delayed bonus block (lines 468-480): when the queue front changed
(old_pipe is not pipes[0]) and score > max_score, and dead != True, add 100
to dict.get((early_state, early_action), 0) and store it back. -/
def bonusStep (d : QTable) (frontChanged : Bool) (score max_score : ℕ)
    (dead : Bool) (early_state : QState) (early_action : Bool) : QTable :=
  if frontChanged = true ∧ score > max_score then
    if !dead then
      qset d (early_state, early_action) (qget d (early_state, early_action) + 100)
    else d
  else d

/-- Python int() applied to a float offset (line 438): truncation toward
zero, i.e. floor for nonnegative arguments and ceiling for negative ones. -/
def pyInt (q : ℚ) : ℤ := if 0 ≤ q then ⌊q⌋ else ⌈q⌉

/-- new_state (line 438): the quantized state triple
(int(bird.y - (512 - pipes[0].bottom_pieces*32 - 27)), int(pipes[0].x - 50), dead). -/
def new_state (bird_y pipe_x : ℚ) (bottom_pieces : ℤ) (dead : Bool) : QState :=
  (pyInt (bird_y - (512 - (bottom_pieces : ℚ) * 32 - 27)), pyInt (pipe_x - 50), dead)

/-- Modelled from the spec: section 3 of the design document describes the
two offsets of the quantized state as the raw offsets truncated to
integers; truncation toward zero written with floors only. -/
def pyTrunc (q : ℚ) : ℤ := if 0 ≤ q then ⌊q⌋ else -⌊-q⌋

/-!
Random-stream bookkeeping.  The source keeps one ambient global
generator (the random module) plus the two-element list random_state,
whose element 0 is the obstacle stream and element 1 the exploration
stream; code swaps streams in and out with setstate/getstate.  Generator
states are abstract naturals; a draw function of type Randint stands for
random.randint(lo, hi) run on an explicit generator state.  All theorems
below hold for every such draw function, so nothing depends on the
concrete Mersenne-Twister behaviour.
-/

/-- random.randint(lo, hi) as a pure function of the generator state:
given lo, hi and the state, it yields the drawn value and the new state. -/
abbrev Randint := ℕ → ℕ → ℕ → ℕ × ℕ

/-- The full generator bookkeeping of main: the ambient global generator
state, then random_state[0] (obstacle stream), then random_state[1]
(exploration stream). -/
abbrev GlobalRNG := ℕ × ℕ × ℕ

/-- determine_action (lines 323-349), with its effect on the generator
bookkeeping made explicit.  It runs setstate(random_state[1]), reads the
two table entries with default 0, draws randint(1,10) and stores the
generator back into random_state[1]; if the draw value is below 3 and
score >= max_score it draws randint(0,1) the same way and answers that
coin, otherwise it answers whether state_click > state_nothing. -/
def determine_action (ri : Randint) (state : QState) (d : QTable)
    (g : GlobalRNG) (score max_score : ℕ) : Bool × GlobalRNG :=
  let state_click := qget d (state, true)
  let state_nothing := qget d (state, false)
  let p := ri 1 10 g.2.2
  let g1 : GlobalRNG := (p.2, g.2.1, p.2)
  if p.1 < 3 ∧ score ≥ max_score then
    let q := ri 0 1 g1.2.2
    let g2 : GlobalRNG := (q.2, g1.2.1, q.2)
    if q.1 = 1 then (true, g2) else (false, g2)
  else if state_click > state_nothing then (true, g1)
  else (false, g1)

/-- The generator effect of PipePair.__init__ (lines 189-192):
random.setstate(random_state[0]); bottom_pieces = random.randint(1, total);
random_state[0] = random.getstate().  Returns the draw and the new
bookkeeping; random_state[1] is untouched. -/
def pipeRand (ri : Randint) (total : ℕ) (g : GlobalRNG) : ℕ × GlobalRNG :=
  let p := ri 1 total g.2.1
  (p.1, (p.2, p.2, g.2.2))

/-- The per-life reseed at the top of the outer loop (lines 369-371):
random_state[1] = random.getstate(); random.seed(0);
random_state[0] = random.getstate().  seed models random.seed as a map
from the seed value to the resulting generator state. -/
def newLifeSeed (seed : ℕ → ℕ) (g : GlobalRNG) : GlobalRNG :=
  let s1 := g.1
  let amb := seed 0
  (amb, amb, s1)

/-- One random-consuming operation of the inner loop: creating a PipePair,
or calling determine_action on some state, score and max_score. -/
inductive RandOp where
  | pipe : RandOp
  | explore (state : QState) (score max_score : ℕ) : RandOp

/-- Number of PipePair creations in a list of operations. -/
def countPipe : List RandOp → ℕ
  | [] => 0
  | RandOp.pipe :: ops => countPipe ops + 1
  | RandOp.explore _ _ _ :: ops => countPipe ops

/-- Run a list of random-consuming operations against the generator
bookkeeping, collecting the bottom_pieces draws of the PipePair creations
in order. -/
def runOps (ri : Randint) (total : ℕ) (d : QTable) :
    List RandOp → GlobalRNG → List ℕ × GlobalRNG
  | [], g => ([], g)
  | RandOp.pipe :: ops, g =>
      let r := pipeRand ri total g
      let rest := runOps ri total d ops r.2
      (r.1 :: rest.1, rest.2)
  | RandOp.explore s sc ms :: ops, g =>
      let r := determine_action ri s d g sc ms
      runOps ri total d ops r.2

/-- The canonical obstacle draw sequence: n successive randint(1, total)
draws unfolded from the generator state s. -/
def pipeListFrom (ri : Randint) (total : ℕ) (s : ℕ) : ℕ → List ℕ
  | 0 => []
  | n + 1 => (ri 1 total s).1 :: pipeListFrom ri total (ri 1 total s).2 n

/-!
Pipe queue dynamics.  Each pipe is represented by its x position; the
deque pipes is a list whose head is pipes[0].
-/

/-- WIN_WIDTH = 284 * 2 (line 18). -/
def WIN_WIDTH : ℚ := 284 * 2

/-- ANIMATION_SPEED = 0.18 pixels per millisecond (line 17). -/
def ANIMATION_SPEED : ℚ := 18 / 100

/-- PipePair.WIDTH = 80 (line 160). -/
def PIPE_WIDTH : ℚ := 80

/-- Initial x of a new PipePair: float(WIN_WIDTH - 1) (line 175). -/
def pipeSpawnX : ℚ := WIN_WIDTH - 1

/-- PipePair.update (lines 237-244) with delta_frames = 1:
x -= ANIMATION_SPEED * frames_to_msec(1). -/
def pipeUpdate (x : ℚ) : ℚ := x - ANIMATION_SPEED * frames_to_msec 1

/-- PipePair.visible (lines 227-230): -PipePair.WIDTH < x < WIN_WIDTH. -/
def pipeVisible (x : ℚ) : Bool := decide (-PIPE_WIDTH < x) && decide (x < WIN_WIDTH)

/-- Lines 547-548: while pipes and not pipes[0].visible: pipes.popleft(). -/
def dropInvisible : List ℚ → List ℚ
  | [] => []
  | x :: q => if pipeVisible x then x :: q else dropInvisible q

/-- The pipe-queue effect of one inner-loop iteration: optionally append a
new pipe at pipeSpawnX (lines 427-429), then drop invisible front pipes
(lines 547-548), then move every pipe left by one update (lines 550-551). -/
def pipesFrame (spawn : Bool) (q : List ℚ) : List ℚ :=
  let q1 := if spawn then q ++ [pipeSpawnX] else q
  (dropInvisible q1).map pipeUpdate

/-- The pipe queue after a run of frames starting from the empty deque of
a fresh life (line 388), given which frames spawn a pipe. -/
def runFrames (spawns : List Bool) : List ℚ :=
  spawns.foldl (fun q s => pipesFrame s q) []

/-!
Control skeleton of main (lines 364-572) for the exit-behaviour claim.
The outer while(1) has no break or return: when the inner while-not-done
loop ends (done = True, set either by a death or by the quit handler at
lines 484-494), control falls back to the top of the outer loop, which
starts a new life (done = paused = False at line 393).  The quit handler
writes str(dict) to one file and str(max_score) to another, then breaks
out of the event for-loop only; the rest of the frame body still runs,
and pygame.quit() at line 572 sits after the infinite outer loop.
-/

/-- Observable counters of the loop skeleton: lives started, the inner
done flag, how many times each of the two files was written, and how many
frame bodies were processed. -/
structure LoopState where
  lives : ℕ
  done : Bool
  tableWrites : ℕ
  scoreWrites : ℕ
  framesDone : ℕ
  deriving DecidableEq

/-- Event hitting one frame body: a quit request (window close or escape),
a death, or an ordinary tick. -/
inductive FrameEvent where
  | quit : FrameEvent
  | death : FrameEvent
  | tick : FrameEvent

/-- One inner-loop frame body.  A quit event writes the table file and the
score file and sets done (lines 484-494); a death sets done (line 514);
every event processes the frame to its end (the break at line 494 leaves
only the event for-loop). -/
def loopFrame (s : LoopState) (e : FrameEvent) : LoopState :=
  match e with
  | FrameEvent.quit =>
      { s with done := true, tableWrites := s.tableWrites + 1,
               scoreWrites := s.scoreWrites + 1, framesDone := s.framesDone + 1 }
  | FrameEvent.death =>
      { s with done := true, framesDone := s.framesDone + 1 }
  | FrameEvent.tick =>
      { s with framesDone := s.framesDone + 1 }

/-- One step of the outer while(1): if the inner loop has exited
(done = True), a new life is started (done reset at line 393, lives
incremented), and then the next frame body runs. -/
def outerStep (s : LoopState) (e : FrameEvent) : LoopState :=
  let s1 := if s.done then { s with lives := s.lives + 1, done := false } else s
  loopFrame s1 e

/-- The loop state when the first frame of the first life is about to run. -/
def initLoop : LoopState :=
  { lives := 1, done := false, tableWrites := 0, scoreWrites := 0, framesDone := 0 }

/-- A concrete draw function for witnesses: value lo + state mod 3, next
state is the successor. -/
def riLin : Randint := fun lo _ s => (lo + s % 3, s + 1)

/-!
Basic table lemmas, shared by several claims.
-/

theorem qget_qset_same (d : QTable) (k : QState × Bool) (v : ℚ) :
    qget (qset d k v) k = v := by
  simp [qget, qset]

theorem qget_qset_ne (d : QTable) (k k2 : QState × Bool) (v : ℚ) (h : k2 ≠ k) :
    qget (qset d k v) k2 = qget d k2 := by
  simp [qget, qset, h]

theorem qset_apply_ne (d : QTable) (k k2 : QState × Bool) (v : ℚ) (h : k2 ≠ k) :
    qset d k v k2 = d k2 := by
  simp [qset, h]

theorem get_max_reward_eq_max (state : QState) (d : QTable) (action : Bool) :
    get_max_reward state d action = max (qget d (state, true)) (qget d (state, false)) := by
  cases action <;> unfold get_max_reward <;> simp only [Bool.not_false, Bool.not_true]
  · split
    · next h => exact (max_eq_right h.le).symm
    · next h => exact (max_eq_left (not_lt.mp h)).symm
  · split
    · next h => exact (max_eq_left h.le).symm
    · next h => exact (max_eq_right (not_lt.mp h)).symm

/-!
Claim theorems.
-/

/-- C1: at every decision interval the periodic update replaces the table
entry of (previous_state, previous_action) by
old + 0.7 * (reward + 0.9 * maxReward - old), where reward is 1 without a
death and -1000 with one, maxReward is the larger of the two entries of
the state whose action was just taken, absent keys read as 0, and a
single update on the empty table with reward 1 and maxReward 0 stores
exactly 7/10. -/
theorem spec_c1 :
    (∀ (d : QTable) (ps s : QState) (pa a : Bool) (dead : Bool),
      qget (intervalUpdate d ps pa s a dead) (ps, pa)
        = qget d (ps, pa)
          + (7/10) * ((if dead then (-1000 : ℚ) else 1)
              + (9/10) * max (qget d (s, true)) (qget d (s, false))
              - qget d (ps, pa)))
    ∧ (∀ k, qget emptyTable k = 0)
    ∧ qget (intervalUpdate emptyTable (165, 517, false) false (75, 517, false) true false)
        ((165, 517, false), false) = 7/10 := by
  refine ⟨?_, fun k => rfl,
    by norm_num [intervalUpdate, get_max_reward, qget, qset, emptyTable]⟩
  intro d ps s pa a dead
  simp only [intervalUpdate]
  rw [qget_qset_same, get_max_reward_eq_max]

/-- C2: the per-frame death path first overwrites the table entry of the
terminal (state, action) with exactly -1000, then applies the standard
update to (previous_state, previous_action) with reward -1000, learning
rate 0.7 and discount 0.75, reading maxReward from the table after the
overwrite. -/
theorem spec_c2 (d : QTable) (s ps : QState) (a pa : Bool)
    (hne : (s, a) ≠ (ps, pa)) :
    qget (deathUpdate d s a ps pa) (s, a) = -1000
    ∧ qget (deathUpdate d s a ps pa) (ps, pa)
        = qget (qset d (s, a) (-1000)) (ps, pa)
          + (7/10) * (-1000
              + (3/4) * max (qget (qset d (s, a) (-1000)) (s, true))
                  (qget (qset d (s, a) (-1000)) (s, false))
              - qget (qset d (s, a) (-1000)) (ps, pa)) := by
  constructor
  · simp only [deathUpdate]
    rw [qget_qset_ne _ _ _ _ hne, qget_qset_same]
  · simp only [deathUpdate]
    rw [qget_qset_same, get_max_reward_eq_max]

theorem spec_c2_witness :
    qget (deathUpdate emptyTable (0, 0, true) true (1, 1, false) false) ((0, 0, true), true) = -1000
    ∧ qget (deathUpdate emptyTable (0, 0, true) true (1, 1, false) false) ((1, 1, false), false)
        = qget (qset emptyTable ((0, 0, true), true) (-1000)) ((1, 1, false), false)
          + (7/10) * (-1000
              + (3/4) * max (qget (qset emptyTable ((0, 0, true), true) (-1000)) ((0, 0, true), true))
                  (qget (qset emptyTable ((0, 0, true), true) (-1000)) ((0, 0, true), false))
              - qget (qset emptyTable ((0, 0, true), true) (-1000)) ((1, 1, false), false)) :=
  spec_c2 emptyTable (0, 0, true) (1, 1, false) true false (by decide)

/-- C3: when score is strictly below max_score the chosen action is the
deterministic table comparison (ascend exactly when the stored value of
(state, true) strictly exceeds that of (state, false), defaults 0);
in general the action is the 50/50 coin exactly when the first draw is
below 3 and score >= max_score, and 2 of the 10 values of a draw from
[1, 10] are below 3. -/
theorem spec_c3 (ri : Randint) (s : QState) (d : QTable) (g : GlobalRNG)
    (score max_score : ℕ) :
    (score < max_score →
      (determine_action ri s d g score max_score).1
        = decide (qget d (s, false) < qget d (s, true)))
    ∧ ((determine_action ri s d g score max_score).1
        = if (ri 1 10 g.2.2).1 < 3 ∧ score ≥ max_score
          then decide ((ri 0 1 (ri 1 10 g.2.2).2).1 = 1)
          else decide (qget d (s, false) < qget d (s, true)))
    ∧ (Finset.filter (fun v => v < 3) (Finset.Icc 1 10)).card = 2
    ∧ (Finset.Icc (1 : ℕ) 10).card = 10 := by
  refine ⟨?_, ?_, by decide, by decide⟩
  · intro h
    have hn : ¬ ((ri 1 10 g.2.2).1 < 3 ∧ score ≥ max_score) :=
      fun hc => absurd hc.2 (not_le.mpr h)
    simp only [determine_action]
    rw [if_neg hn]
    split_ifs with h2 <;> simp [h2]
  · simp only [determine_action]
    split_ifs with h1 h2 h3
    · simp [h2]
    · simp [h2]
    · simp [h3]
    · simp [h3]

theorem spec_c3_witness :
    (determine_action riLin ((0 : ℤ), (0 : ℤ), false) emptyTable (0, 0, 0) 0 1).1
      = decide (qget emptyTable (((0 : ℤ), (0 : ℤ), false), false)
          < qget emptyTable (((0 : ℤ), (0 : ℤ), false), true)) :=
  (spec_c3 riLin ((0 : ℤ), (0 : ℤ), false) emptyTable (0, 0, 0) 0 1).1 (by decide)

/-- C6: when the queue front has changed, the life is not dead and the
score strictly exceeds the best score, the bonus block adds exactly 100
to the table entry of the early (state, action) pair and leaves every
other key of the table untouched. -/
theorem spec_c6 (d : QTable) (fc : Bool) (score max_score : ℕ) (dead : Bool)
    (es : QState) (ea : Bool)
    (h1 : fc = true) (h2 : score > max_score) (h3 : dead = false) :
    qget (bonusStep d fc score max_score dead es ea) (es, ea) = qget d (es, ea) + 100
    ∧ ∀ k, k ≠ (es, ea) → bonusStep d fc score max_score dead es ea k = d k := by
  subst h1
  subst h3
  have hb : bonusStep d true score max_score false es ea
      = qset d (es, ea) (qget d (es, ea) + 100) := by
    unfold bonusStep
    rw [if_pos ⟨rfl, h2⟩]
    rfl
  rw [hb]
  exact ⟨qget_qset_same _ _ _, fun k hk => qset_apply_ne _ _ _ _ hk⟩

theorem spec_c6_witness :
    qget (bonusStep emptyTable true 1 0 false ((2 : ℤ), (3 : ℤ), false) true)
        (((2 : ℤ), (3 : ℤ), false), true)
      = qget emptyTable (((2 : ℤ), (3 : ℤ), false), true) + 100 :=
  (spec_c6 emptyTable true 1 0 false ((2 : ℤ), (3 : ℤ), false) true rfl (by decide) rfl).1

/-- C10: determine_action reads and writes only the exploration stream
(element 1 of random_state): its action does not depend on the ambient
state or the obstacle stream, the obstacle stream is returned unchanged,
and the exploration stream always advances by the randint(1,10) draw even
when the score gate fails, plus by the randint(0,1) draw when the
exploration branch is taken; symmetrically a PipePair creation reads and
writes only the obstacle stream, advancing it by exactly the one
randint(1, total) draw and leaving the exploration stream unchanged. -/
theorem spec_c10 (ri : Randint) (s : QState) (d : QTable)
    (score max_score total amb amb2 x x2 e e2 : ℕ) :
    (determine_action ri s d (amb, x, e) score max_score).1
      = (determine_action ri s d (amb2, x2, e) score max_score).1
    ∧ (determine_action ri s d (amb, x, e) score max_score).2.2.1 = x
    ∧ (determine_action ri s d (amb, x, e) score max_score).2.2.2
        = (if (ri 1 10 e).1 < 3 ∧ score ≥ max_score
           then (ri 0 1 (ri 1 10 e).2).2 else (ri 1 10 e).2)
    ∧ (pipeRand ri total (amb, x, e)).1 = (pipeRand ri total (amb2, x, e2)).1
    ∧ (pipeRand ri total (amb, x, e)).2.2.1 = (ri 1 total x).2
    ∧ (pipeRand ri total (amb, x, e)).2.2.2 = e := by
  refine ⟨?_, ?_, ?_, rfl, rfl, rfl⟩
  · simp only [determine_action]
    split_ifs <;> rfl
  · simp only [determine_action]
    split_ifs <;> rfl
  · simp only [determine_action]
    split_ifs <;> rfl

theorem pyInt_eq_pyTrunc (q : ℚ) : pyInt q = pyTrunc q := by
  unfold pyInt pyTrunc
  split_ifs with h
  · rfl
  · rw [Int.floor_neg, neg_neg]

theorem round_eq_floor_of_fract_lt (v : ℚ) (h : Int.fract v < 1/2) :
    round v = ⌊v⌋ := by
  have hz : ⌊Int.fract v + 1/2⌋ = 0 :=
    Int.floor_eq_zero_iff.mpr
      (Set.mem_Ico.mpr ⟨by linarith [Int.fract_nonneg v], by linarith⟩)
  rw [round_eq]
  conv_lhs => rw [← Int.floor_add_fract v]
  rw [add_assoc, Int.floor_int_add, hz, add_zero]

/-- C4 counterexample: the encoder truncates with int(), so at bird
y-position 400.6 with a front obstacle of 5 bottom pieces the stored
vertical offset is 75, while the nearest-integer rounding of the raw
offset 75.6 is 76. -/
theorem spec_c4_counterexample :
    (new_state (2003/5) 567 5 false).1
      ≠ round ((2003/5 : ℚ) - (512 - ((5 : ℤ) : ℚ) * 32 - 27)) := by
  have hv : (2003/5 : ℚ) - (512 - ((5 : ℤ) : ℚ) * 32 - 27) = 378/5 := by
    norm_num
  have h1 : (new_state (2003/5) 567 5 false).1 = 75 := by
    simp only [new_state, pyInt, hv]
    rw [if_pos (by norm_num : (0:ℚ) ≤ 378/5)]
    rw [Int.floor_eq_iff]
    norm_num
  have h2 : round ((2003/5 : ℚ) - (512 - ((5 : ℤ) : ℚ) * 32 - 27)) = 76 := by
    rw [hv, round_eq, show (378/5 + 1/2 : ℚ) = 761/10 by norm_num]
    rw [Int.floor_eq_iff]
    norm_num
  rw [h1, h2]
  decide

/-- C4 (amended): every 15 frames the encoder produces
(int(bird.y - (512 - bottomPieces*32 - 27)), int(pipes[0].x - 50), dead)
where int() is truncation toward zero, not nearest-integer rounding; the
truncated offset agrees with the nearest-integer rounding only when the
raw offset is nonnegative with fractional part below one half. -/
theorem spec_c4 (y x : ℚ) (bp : ℤ) (dead : Bool) :
    new_state y x bp dead
      = (pyTrunc (y - (512 - (bp : ℚ) * 32 - 27)), pyTrunc (x - 50), dead)
    ∧ (0 ≤ y - (512 - (bp : ℚ) * 32 - 27) →
        Int.fract (y - (512 - (bp : ℚ) * 32 - 27)) < 1/2 →
        (new_state y x bp dead).1 = round (y - (512 - (bp : ℚ) * 32 - 27))) := by
  constructor
  · unfold new_state
    rw [pyInt_eq_pyTrunc, pyInt_eq_pyTrunc]
  · intro h0 h
    show pyInt (y - (512 - (bp : ℚ) * 32 - 27)) = _
    rw [pyInt, if_pos h0, round_eq_floor_of_fract_lt _ h]

theorem spec_c4_witness :
    new_state (1601/4) 567 5 false
      = (pyTrunc ((1601/4 : ℚ) - (512 - ((5 : ℤ) : ℚ) * 32 - 27)), pyTrunc ((567 : ℚ) - 50), false)
    ∧ (new_state (1601/4) 567 5 false).1
        = round ((1601/4 : ℚ) - (512 - ((5 : ℤ) : ℚ) * 32 - 27)) := by
  have h := spec_c4 (1601/4) 567 5 false
  refine ⟨h.1, h.2 (by norm_num) ?_⟩
  have hv : (1601/4 : ℚ) - (512 - ((5 : ℤ) : ℚ) * 32 - 27) = 301/4 := by norm_num
  rw [hv]
  rw [Int.fract]
  rw [show ⌊(301/4 : ℚ)⌋ = 75 by rw [Int.floor_eq_iff]; norm_num]
  norm_num

/-- C5 counterexample: the very first Bird.update of a life, starting from
the 2 ms initial climb seed, drives msec_to_climb to 2 - 1000/60 < 0, so
the timer does not stay nonnegative. -/
theorem spec_c5_counterexample : msecStep 2 < 0 := by
  norm_num [msecStep, frames_to_msec, FPS]

theorem msecStep_lb (m : ℚ) (h : -(50/3) < m) : -(50/3) < msecStep m := by
  unfold msecStep
  split_ifs with hp
  · have hf : frames_to_msec 1 = 50/3 := by norm_num [frames_to_msec, FPS]
    rw [hf]
    linarith
  · exact h

theorem msecStep_iter_lb (m : ℚ) (h : -(50/3) < m) :
    ∀ n : ℕ, -(50/3) < msecStep^[n] m := by
  intro n
  induction n with
  | zero => exact h
  | succ n ih =>
      rw [Function.iterate_succ_apply']
      exact msecStep_lb _ ih

/-- C5 (amended): the climb timer is not kept nonnegative (no clamp
exists); instead, from either the 2 ms seed of a new life or a full
CLIMB_DURATION climb, every sequence of per-frame updates keeps it
strictly above -(1000/60) ms, one frame short of zero, and once the timer
is at or below 0 an update leaves it unchanged (free sink). -/
theorem spec_c5 :
    (∀ n : ℕ, -(50/3) < msecStep^[n] (2 : ℚ))
    ∧ (∀ n : ℕ, -(50/3) < msecStep^[n] CLIMB_DURATION)
    ∧ (∀ m : ℚ, m ≤ 0 → msecStep m = m) := by
  refine ⟨msecStep_iter_lb 2 (by norm_num),
    msecStep_iter_lb CLIMB_DURATION (by norm_num [CLIMB_DURATION]), ?_⟩
  intro m hm
  unfold msecStep
  rw [if_neg (not_lt.mpr hm)]

theorem spec_c5_witness : msecStep (-1) = -1 := spec_c5.2.2 (-1) (by norm_num)

/-- C7: evaluating the loop skeleton at a quit event.  The quit frame
does write the value table file and the best-score file, one write to
each of the two distinct stores, and ends the inner loop; but the outer
while(1) then starts a new life and processes further frames, so the
process does not terminate as the claim requires. -/
theorem spec_c7_eval :
    (outerStep initLoop FrameEvent.quit).tableWrites = 1
    ∧ (outerStep initLoop FrameEvent.quit).scoreWrites = 1
    ∧ (outerStep initLoop FrameEvent.quit).done = true
    ∧ (outerStep (outerStep initLoop FrameEvent.quit) FrameEvent.tick).lives = 2
    ∧ (outerStep (outerStep initLoop FrameEvent.quit) FrameEvent.tick).framesDone = 2 :=
  ⟨rfl, rfl, rfl, rfl, rfl⟩

theorem pipeUpdate_eq (x : ℚ) : pipeUpdate x = x - 3 := by
  norm_num [pipeUpdate, ANIMATION_SPEED, frames_to_msec, FPS]

theorem dropInvisible_sublist (q : List ℚ) : List.Sublist (dropInvisible q) q := by
  induction q with
  | nil => exact List.Sublist.refl _
  | cons x q ih =>
      unfold dropInvisible
      split_ifs
      · exact List.Sublist.refl _
      · exact List.Sublist.cons x ih

theorem dropMap_inv (q1 : List ℚ)
    (hp : List.Pairwise (· < ·) q1) (hb : ∀ x ∈ q1, x ≤ 567) :
    List.Pairwise (· < ·) ((dropInvisible q1).map pipeUpdate)
    ∧ ∀ x ∈ (dropInvisible q1).map pipeUpdate, x ≤ 564 := by
  have hsub := dropInvisible_sublist q1
  constructor
  · rw [List.pairwise_map]
    exact (hp.sublist hsub).imp (fun hab => by
      rw [pipeUpdate_eq, pipeUpdate_eq]; linarith)
  · intro x hx
    rw [List.mem_map] at hx
    obtain ⟨y, hy, hxy⟩ := hx
    have := hb y (hsub.subset hy)
    rw [← hxy, pipeUpdate_eq]
    linarith

theorem pipesFrame_inv (s : Bool) (q : List ℚ)
    (h1 : List.Pairwise (· < ·) q) (h2 : ∀ x ∈ q, x ≤ 564) :
    List.Pairwise (· < ·) (pipesFrame s q)
    ∧ ∀ x ∈ pipesFrame s q, x ≤ 564 := by
  have hspawn : pipeSpawnX = 567 := by norm_num [pipeSpawnX, WIN_WIDTH]
  cases s
  · have h := dropMap_inv q h1 (fun x hx => by linarith [h2 x hx])
    simpa [pipesFrame] using h
  · have hp : List.Pairwise (· < ·) (q ++ [pipeSpawnX]) := by
      rw [List.pairwise_append]
      refine ⟨h1, List.pairwise_singleton _ _, fun a ha b hb => ?_⟩
      simp only [List.mem_singleton] at hb
      subst hb
      rw [hspawn]
      linarith [h2 a ha]
    have hbnd : ∀ x ∈ q ++ [pipeSpawnX], x ≤ 567 := by
      intro x hx
      rcases List.mem_append.mp hx with hx | hx
      · linarith [h2 x hx]
      · rw [List.mem_singleton.mp hx, hspawn]
    have h := dropMap_inv (q ++ [pipeSpawnX]) hp hbnd
    simpa [pipesFrame] using h

theorem runFrames_inv (spawns : List Bool) :
    ∀ q : List ℚ, List.Pairwise (· < ·) q → (∀ x ∈ q, x ≤ 564) →
      List.Pairwise (· < ·) (spawns.foldl (fun q s => pipesFrame s q) q)
      ∧ ∀ x ∈ spawns.foldl (fun q s => pipesFrame s q) q, x ≤ 564 := by
  induction spawns with
  | nil => exact fun q h1 h2 => ⟨h1, h2⟩
  | cons s spawns ih =>
      intro q h1 h2
      rw [List.foldl_cons]
      have h := pipesFrame_inv s q h1 h2
      exact ih _ h.1 h.2

/-- C8 (amended): the pipe queue preserves insertion order with the front
element the nearest (smallest-x) obstacle: after any sequence of frames,
each optionally appending a fresh pipe, dropping invisible front pipes
and moving everything left, the queue is strictly sorted by increasing x
from front to back (the claim had the order reversed). -/
theorem spec_c8 (spawns : List Bool) :
    List.Pairwise (· < ·) (runFrames spawns) :=
  (runFrames_inv spawns [] (List.Pairwise.nil) (by simp)).1

theorem foldl_replicate_false (n : ℕ) (q : List ℚ) :
    List.foldl (fun q s => pipesFrame s q) q (List.replicate n false)
      = (pipesFrame false)^[n] q := by
  induction n generalizing q with
  | zero => rfl
  | succ n ih =>
      rw [List.replicate_succ, List.foldl_cons, ih, Function.iterate_succ_apply]

theorem pipesFrame_false_single (x : ℚ) (hlo : -80 < x) (hhi : x < 568) :
    pipesFrame false [x] = [x - 3] := by
  have hv : pipeVisible x = true := by
    simp only [pipeVisible, PIPE_WIDTH, WIN_WIDTH, Bool.and_eq_true, decide_eq_true_eq]
    norm_num
    exact ⟨hlo, hhi⟩
  simp [pipesFrame, dropInvisible, hv, pipeUpdate_eq]

theorem iterate_false_single (x : ℚ) (hhi : x < 568) :
    ∀ n : ℕ, -80 < x - 3 * n → (pipesFrame false)^[n] [x] = [x - 3 * n] := by
  intro n
  induction n with
  | zero => simp
  | succ n ih =>
      intro h
      have hc : ((n : ℚ)) ≥ 0 := Nat.cast_nonneg n
      have hn : -80 < x - 3 * n := by push_cast at h ⊢; linarith
      rw [Function.iterate_succ_apply', ih hn,
        pipesFrame_false_single _ hn (by linarith)]
      congr 1
      push_cast
      ring

/-- C8 counterexample: spawning a pipe on frame 0 and the next on frame
180 (the actual 3000 ms cadence at 60 FPS), the queue after frame 180 is
[24, 564]: the front element has the smaller x, so the queue is not
sorted by decreasing x from front to back. -/
theorem spec_c8_counterexample :
    runFrames (true :: (List.replicate 179 false ++ [true])) = [24, 564]
    ∧ ¬ List.Chain' (· > ·) (runFrames (true :: (List.replicate 179 false ++ [true]))) := by
  have hv567 : pipeVisible pipeSpawnX = true := by
    simp only [pipeVisible, pipeSpawnX, PIPE_WIDTH, WIN_WIDTH, Bool.and_eq_true,
      decide_eq_true_eq]
    norm_num
  have hfirst : pipesFrame true ([] : List ℚ) = [564] := by
    simp [pipesFrame, dropInvisible, hv567, pipeUpdate_eq]
    norm_num [pipeSpawnX, WIN_WIDTH]
  have hmid : (pipesFrame false)^[179] [564] = [27] := by
    rw [iterate_false_single 564 (by norm_num) 179 (by norm_num)]
    norm_num
  have hv27 : pipeVisible 27 = true := by
    simp only [pipeVisible, PIPE_WIDTH, WIN_WIDTH, Bool.and_eq_true, decide_eq_true_eq]
    norm_num
  have hlast : pipesFrame true [27] = [24, 564] := by
    simp [pipesFrame, dropInvisible, hv27, pipeUpdate_eq]
    norm_num [pipeSpawnX, WIN_WIDTH]
  have hrun : runFrames (true :: (List.replicate 179 false ++ [true])) = [24, 564] := by
    rw [runFrames, List.foldl_cons]
    show List.foldl (fun q s => pipesFrame s q) (pipesFrame true [])
      (List.replicate 179 false ++ [true]) = _
    rw [hfirst, List.foldl_append, foldl_replicate_false, hmid, List.foldl_cons,
      List.foldl_nil]
    exact hlast
  refine ⟨hrun, ?_⟩
  rw [hrun]
  rw [List.chain'_cons]
  norm_num

theorem determine_action_stream0 (ri : Randint) (s : QState) (d : QTable)
    (g : GlobalRNG) (score max_score : ℕ) :
    (determine_action ri s d g score max_score).2.2.1 = g.2.1 := by
  simp only [determine_action]
  split_ifs <;> rfl

theorem runOps_values (ri : Randint) (total : ℕ) (d : QTable) :
    ∀ (ops : List RandOp) (g : GlobalRNG),
      (runOps ri total d ops g).1 = pipeListFrom ri total g.2.1 (countPipe ops) := by
  intro ops
  induction ops with
  | nil => intro g; rfl
  | cons o ops ih =>
      intro g
      cases o with
      | pipe =>
          simp only [runOps, countPipe]
          rw [ih]
          rfl
      | explore s2 sc ms =>
          simp only [runOps, countPipe]
          rw [ih, determine_action_stream0]

/-- C9: the per-life sequence of obstacle gap draws is a function of the
fixed obstacle-stream seed 0 alone: for any draw semantics, any two lives
or runs whose random-state pairs differ arbitrarily, any two tables, and
any two interleavings of agent exploration calls, the recorded
bottom_pieces draws agree as soon as the two runs create the same number
of pipes. -/
theorem spec_c9 (ri : Randint) (seed : ℕ → ℕ) (total : ℕ) (d d2 : QTable)
    (ops ops2 : List RandOp) (g g2 : GlobalRNG)
    (h : countPipe ops = countPipe ops2) :
    (runOps ri total d ops (newLifeSeed seed g)).1
      = (runOps ri total d2 ops2 (newLifeSeed seed g2)).1 := by
  rw [runOps_values, runOps_values, h]
  rfl

theorem spec_c9_witness :
    (runOps riLin 9 emptyTable
        [RandOp.pipe, RandOp.explore ((0 : ℤ), (0 : ℤ), false) 0 0]
        (newLifeSeed (fun n => n + 1) (3, 4, 5))).1
      = (runOps riLin 9 emptyTable
        [RandOp.explore ((1 : ℤ), (2 : ℤ), true) 5 0, RandOp.pipe]
        (newLifeSeed (fun n => n + 1) (0, 0, 0))).1 :=
  spec_c9 riLin (fun n => n + 1) 9 emptyTable emptyTable
    [RandOp.pipe, RandOp.explore ((0 : ℤ), (0 : ℤ), false) 0 0]
    [RandOp.explore ((1 : ℤ), (2 : ℤ), true) 5 0, RandOp.pipe]
    (3, 4, 5) (0, 0, 0) rfl
